import Mathlib

/-!
Verification of the py-cgroups path-resolution and cross-subsystem engine
(src/cgroup/path.py, with the error taxonomy of src/pycgroups/errors.py).

The pseudo-filesystem below the cgroup mount root is modelled shallowly:
a path is its list of segments relative to the mount root, and a state
records which paths are directories, files and symlinks, the directory
listing order of the mount root, and the identifier set currently held by
each membership pseudo-file.  Functions of path.py become Lean functions
over this state; raising an exception becomes an Except / Option result.
-/

namespace PyCGroups

/-- A path relative to the cgroup mount root (CGROUP_PATH), as its segments.
os.path.join(CGROUP_PATH, subsystem, *path) is the list subsystem :: path. -/
abbrev SPath := List String

/-- State of the pseudo-filesystem under the cgroup mount root.
membership gives, for each membership pseudo-file path, the set of
task/process identifiers the kernel currently lists in it. -/
structure FSState where
  listRoot : List String
  dirs : Finset SPath
  files : Finset SPath
  links : Finset SPath
  membership : SPath → Finset String

/-- os.path.isfile relative to the mount root. -/
def FSState.isfile (fs : FSState) (p : SPath) : Bool := decide (p ∈ fs.files)

/-- os.path.isdir relative to the mount root. -/
def FSState.isdir (fs : FSState) (p : SPath) : Bool := decide (p ∈ fs.dirs)

/-- os.path.islink relative to the mount root. -/
def FSState.islink (fs : FSState) (p : SPath) : Bool := decide (p ∈ fs.links)

/-- os.path.exists relative to the mount root (a dir or a file). -/
def FSState.pathExists (fs : FSState) (p : SPath) : Bool := fs.isdir p || fs.isfile p

/-- subsystem_path(subsystem, *path) = os.path.join(CGROUP_PATH, subsystem, *path),
relative to the mount root. -/
def subsystem_path (subsystem : String) (path : SPath) : SPath := subsystem :: path

/-- iter_subsystems(lookup_subsystems, include_aliases): yields each entry s of
os.listdir(CGROUP_PATH), in listing order, skipping s when subsystem_path(s) is
not a directory, when it is a symlink and aliases are excluded, or when a lookup
set was given and s is not in it.  A single-string argument becomes the
singleton set (isinstance str branch), so the model takes the already-converted
Option (List String): none for None, some l for set(l). -/
def iter_subsystems (fs : FSState) (lookup_subsystems : Option (List String))
    (include_aliases : Bool) : List String :=
  fs.listRoot.filter fun s =>
    fs.isdir [s] && (include_aliases || !fs.islink [s]) &&
      (match lookup_subsystems with
       | Option.none => true
       | some l => decide (s ∈ l))

/-- Membership characterization of iter_subsystems: s is yielded iff it is a
mount-root entry whose subsystem directory exists, is not an excluded symlink
alias, and belongs to every provided lookup set (vacuous when the lookup
argument is None). -/
theorem iter_subsystems_mem (fs : FSState) (lookup : Option (List String))
    (include_aliases : Bool) (s : String) :
    s ∈ iter_subsystems fs lookup include_aliases ↔
      s ∈ fs.listRoot ∧ [s] ∈ fs.dirs ∧
        (include_aliases = true ∨ [s] ∉ fs.links) ∧ ∀ l ∈ lookup, s ∈ l := by
  unfold iter_subsystems
  simp only [List.mem_filter, Bool.and_eq_true, Bool.or_eq_true, Bool.not_eq_true',
    FSState.isdir, FSState.islink, decide_eq_true_eq, decide_eq_false_iff_not]
  constructor
  · rintro ⟨hroot, ⟨⟨hdir, halias⟩, hlook⟩⟩
    refine ⟨hroot, hdir, halias, ?_⟩
    intro l hl
    rw [Option.mem_def] at hl
    subst hl
    simpa using hlook
  · rintro ⟨hroot, hdir, halias, hlook⟩
    refine ⟨hroot, ⟨⟨hdir, halias⟩, ?_⟩⟩
    cases lookup with
    | none => simp
    | some l' => simpa using hlook l' rfl

/-- A mount root with a single subsystem directory named cpu and nothing else. -/
def fsOne : FSState where
  listRoot := ["cpu"]
  dirs := {["cpu"]}
  files := ∅
  links := ∅
  membership := fun _ => ∅

/-- C7 counterexample: with lookup_subsystems bound to an empty iterable,
iter_subsystems yields nothing, while the discovered subsystems (lookup unset)
are ["cpu"]; so an empty requested set does not yield all discovered
subsystems, refuting the claim at this input. -/
theorem iter_subsystems_empty_lookup_counterexample :
    iter_subsystems fsOne (some []) false = [] ∧
      iter_subsystems fsOne Option.none false = ["cpu"] := by decide

/-- C7 witness: the amended membership characterization applied at a concrete
state, deriving that cpu is discovered when the lookup argument is None. -/
theorem iter_subsystems_mem_witness :
    ["cpu"] ∈ fsOne.dirs ∧
      ("cpu" ∈ fsOne.listRoot ∧ ["cpu"] ∈ fsOne.dirs ∧
        (false = true ∨ ["cpu"] ∉ fsOne.links) ∧
        ∀ l ∈ (Option.none : Option (List String)), "cpu" ∈ l) :=
  ⟨by decide, (iter_subsystems_mem fsOne Option.none false "cpu").mp (by decide)⟩

/-!
Path classification: interpret_cgroup_path and the error kinds of
pycgroups/errors.py (the class CGroupLookupError.Type).
-/

/-- The members of the enum CGroupLookupError.Type in errors.py. -/
inductive CGroupLookupErrorType
  | FILE_INSTEAD_OF_GROUP
  | GROUP_INSTEAD_OF_FILE
  | LINK
  | FILE_NOT_EXISTS
  | GROUP_NOT_EXISTS
  | NOT_EXISTS
  | AMBIGUITY_FILE_OR_GROUP
  | AMBIGUITY_MULTI_FILES
deriving DecidableEq

/-- Python attribute access CGroupLookupError.Type.NAME: some member when NAME
is a member of the enum in errors.py, none (an AttributeError) otherwise. -/
def lookupErrorTypeAttr (name : String) : Option CGroupLookupErrorType :=
  if name = "FILE_INSTEAD_OF_GROUP" then some .FILE_INSTEAD_OF_GROUP
  else if name = "GROUP_INSTEAD_OF_FILE" then some .GROUP_INSTEAD_OF_FILE
  else if name = "LINK" then some .LINK
  else if name = "FILE_NOT_EXISTS" then some .FILE_NOT_EXISTS
  else if name = "GROUP_NOT_EXISTS" then some .GROUP_NOT_EXISTS
  else if name = "NOT_EXISTS" then some .NOT_EXISTS
  else if name = "AMBIGUITY_FILE_OR_GROUP" then some .AMBIGUITY_FILE_OR_GROUP
  else if name = "AMBIGUITY_MULTI_FILES" then some .AMBIGUITY_MULTI_FILES
  else Option.none

/-- Python exception outcomes of the modelled functions: a CGroupLookupError
carrying its kind and path, an AttributeError from accessing a missing enum
member by name, a TypeError (os.path.join called with no component), or an
OSError bubbling out of the os module. -/
inductive PyExc
  | lookupError (t : CGroupLookupErrorType) (path : SPath)
  | attributeError (name : String)
  | typeError (msg : String)
  | osError (path : SPath)
deriving DecidableEq

/-- The tuple returned by interpret_cgroup_path:
("file", path) for a file exclusive to one subsystem, ("dir", subsystem set)
for a group directory, (None, None) when absent.  The file case keeps the
absolute path paths[i] = subsystem_path(s, *path), whose head names the
subsystem the file belongs to. -/
inductive Classification
  | file (absPath : SPath)
  | dir (subsystems : Finset String)
  | absent
deriving DecidableEq

/-- interpret_cgroup_path(*path, lookup_subsystems): tests file/directory
existence of the path under every in-scope subsystem, then computes the
unconditional full_path = os.path.join(*path) - which raises TypeError when
path has no component, before either ambiguity check and before any return -
then raises on ambiguity (directory in one subsystem and file in another, or a
file in more than one subsystem), otherwise classifies the path.  The kind
carried by the lookupError stands for the failure: errors.py turns the two
ambiguity kinds into a ValueError whose message names the ambiguity, which
this model identifies with the kind itself. -/
def interpret_cgroup_path (fs : FSState) (path : SPath)
    (lookup_subsystems : Option (List String)) :
    Except PyExc Classification :=
  let subsystems := iter_subsystems fs lookup_subsystems false
  let paths := subsystems.map fun s => subsystem_path s path
  let is_file := paths.map fs.isfile
  let is_file_count := is_file.count true
  let is_dir := paths.map fs.isdir
  let is_dir_count := is_dir.count true
  match path with
  | [] => .error (.typeError "join missing 1 required positional argument")
  | _ :: _ =>
    if is_dir_count > 0 ∧ is_file_count > 0 then
      .error (.lookupError .AMBIGUITY_FILE_OR_GROUP path)
    else if is_file_count > 1 then
      .error (.lookupError .AMBIGUITY_MULTI_FILES path)
    else if is_file_count = 1 then
      match paths.find? fs.isfile with
      | some p => .ok (.file p)
      | Option.none => .ok .absent
    else if is_dir_count > 0 then
      .ok (.dir ((((subsystems.zip is_dir).filter fun sd => sd.2).map fun sd => sd.1).toFinset))
    else
      .ok .absent

/-- In-scope subsystems for which the path is a file. -/
def file_subsystems (fs : FSState) (path : SPath)
    (lookup_subsystems : Option (List String)) : List String :=
  (iter_subsystems fs lookup_subsystems false).filter fun s =>
    fs.isfile (subsystem_path s path)

/-- In-scope subsystems for which the path is a directory. -/
def dir_subsystems (fs : FSState) (path : SPath)
    (lookup_subsystems : Option (List String)) : List String :=
  (iter_subsystems fs lookup_subsystems false).filter fun s =>
    fs.isdir (subsystem_path s path)

/-- Modelled from the spec: the classification rules 3 to 5 of PathResolver
interpret, read off the spec text, to be compared with the source translation
interpret_cgroup_path.  File when exactly one in-scope subsystem has the path
as a file, else Directory of the exact set of subsystems having it as a
directory when that set is non-empty, else Absent. -/
def interpretSpec (fs : FSState) (path : SPath)
    (lookup_subsystems : Option (List String)) : Classification :=
  match file_subsystems fs path lookup_subsystems with
  | [s] => .file (subsystem_path s path)
  | _ =>
    if dir_subsystems fs path lookup_subsystems = [] then .absent
    else .dir (dir_subsystems fs path lookup_subsystems).toFinset

/-- Counting true over a mapped boolean list is the length of the filter. -/
theorem count_true_map {α : Type} (l : List α) (h : α → Bool) :
    (l.map h).count true = (l.filter h).length := by
  rw [List.count, List.countP_map, List.countP_eq_length_filter]
  congr 1
  apply List.filter_congr
  intro x _
  simp [Function.comp]

/-- find? returns the head of the filtered list. -/
theorem find?_eq_head?_filter {α : Type} (l : List α) (h : α → Bool) :
    l.find? h = (l.filter h).head? := by
  induction l with
  | nil => rfl
  | cons a l ih =>
    rw [List.find?_cons, List.filter_cons]
    cases hha : h a with
    | true => simp
    | false =>
      simp only [cond_false, Bool.false_eq_true, if_false]
      exact ih

/-- Zipping a list with a mapped copy of itself, filtering on the mapped
component and projecting, is a plain filter. -/
theorem zip_self_map_filter {α : Type} (l : List α) (h : α → Bool) :
    (((l.zip (l.map h)).filter fun sd => sd.2).map fun sd => sd.1) = l.filter h := by
  induction l with
  | nil => rfl
  | cons a l ih =>
    rw [List.map_cons, List.zip_cons_cons, List.filter_cons, List.filter_cons]
    by_cases hh : h a
    · simp [hh, ih]
    · simp [hh, ih]

/-- Bridge: for a non-empty path (so that os.path.join does not raise),
interpret_cgroup_path expressed through the lists of in-scope subsystems
holding the path as a file and as a directory. -/
theorem interpret_cgroup_path_eq (fs : FSState) (path : SPath)
    (lookup : Option (List String)) (hpath : path ≠ []) :
    interpret_cgroup_path fs path lookup =
      if (dir_subsystems fs path lookup).length > 0 ∧
          (file_subsystems fs path lookup).length > 0 then
        .error (.lookupError .AMBIGUITY_FILE_OR_GROUP path)
      else if (file_subsystems fs path lookup).length > 1 then
        .error (.lookupError .AMBIGUITY_MULTI_FILES path)
      else if (file_subsystems fs path lookup).length = 1 then
        match (file_subsystems fs path lookup).head? with
        | some s => .ok (.file (subsystem_path s path))
        | Option.none => .ok .absent
      else if (dir_subsystems fs path lookup).length > 0 then
        .ok (.dir (dir_subsystems fs path lookup).toFinset)
      else
        .ok .absent := by
  cases path with
  | nil => exact absurd rfl hpath
  | cons a0 l0 =>
    unfold interpret_cgroup_path file_subsystems dir_subsystems
    simp only [List.map_map, List.find?_map, count_true_map, zip_self_map_filter]
    rw [show (fs.isfile ∘ fun s => subsystem_path s (a0 :: l0)) =
        fun s => fs.isfile (subsystem_path s (a0 :: l0)) from rfl]
    rw [show (fs.isdir ∘ fun s => subsystem_path s (a0 :: l0)) =
        fun s => fs.isdir (subsystem_path s (a0 :: l0)) from rfl]
    rw [find?_eq_head?_filter]
    cases hh : ((iter_subsystems fs lookup false).filter
        fun s => fs.isfile (subsystem_path s (a0 :: l0))).head? with
    | none => rfl
    | some s => rfl

/-- C2 (amended): for a non-empty path where neither ambiguity applies,
interpret_cgroup_path classifies the path exactly as the spec states: File of
the unique file-holding subsystem's absolute path (whose head is that
subsystem) when exactly one in-scope subsystem has the path as a file, else
Directory of the exact non-empty set of in-scope subsystems holding it as a
directory, else Absent (None, None).  The empty path is excluded: there the
unconditional full_path = os.path.join(*path) raises TypeError before any
classification. -/
theorem interpret_cgroup_path_classification (fs : FSState) (path : SPath)
    (lookup : Option (List String)) (hpath : path ≠ [])
    (h1 : ¬(dir_subsystems fs path lookup ≠ [] ∧ file_subsystems fs path lookup ≠ []))
    (h2 : (file_subsystems fs path lookup).length ≤ 1) :
    interpret_cgroup_path fs path lookup = .ok (interpretSpec fs path lookup) := by
  rw [interpret_cgroup_path_eq fs path lookup hpath]
  unfold interpretSpec
  rcases hF : file_subsystems fs path lookup with _ | ⟨s, F'⟩
  · by_cases hD : dir_subsystems fs path lookup = []
    · simp [hD]
    · have hpos : (dir_subsystems fs path lookup).length > 0 :=
        List.length_pos.mpr hD
      simp [hD, hpos]
  · rcases F' with _ | ⟨s', F''⟩
    · have hD : dir_subsystems fs path lookup = [] := by
        by_contra hD
        exact h1 ⟨hD, by rw [hF]; simp⟩
      rw [hD]
      simp
    · rw [hF] at h2
      simp at h2

/-- C3 (amended): for a non-empty path, interpret_cgroup_path fails with
AMBIGUITY_FILE_OR_GROUP exactly when some in-scope subsystem has the path as a
directory and some has it as a file, and (that failing) fails with
AMBIGUITY_MULTI_FILES exactly when two or more in-scope subsystems have it as
a file; both checks precede any classification, in that order.  The empty path
is excluded: there the unconditional full_path = os.path.join(*path) raises
TypeError before either check. -/
theorem interpret_cgroup_path_ambiguity (fs : FSState) (path : SPath)
    (lookup : Option (List String)) (hpath : path ≠ []) :
    (interpret_cgroup_path fs path lookup =
        .error (.lookupError .AMBIGUITY_FILE_OR_GROUP path) ↔
      dir_subsystems fs path lookup ≠ [] ∧ file_subsystems fs path lookup ≠ []) ∧
    (interpret_cgroup_path fs path lookup =
        .error (.lookupError .AMBIGUITY_MULTI_FILES path) ↔
      ¬(dir_subsystems fs path lookup ≠ [] ∧ file_subsystems fs path lookup ≠ []) ∧
        2 ≤ (file_subsystems fs path lookup).length) := by
  rw [interpret_cgroup_path_eq fs path lookup hpath]
  by_cases hfg : (dir_subsystems fs path lookup).length > 0 ∧
      (file_subsystems fs path lookup).length > 0
  · rw [if_pos hfg]
    constructor
    · constructor
      · intro _
        exact ⟨List.length_pos.mp hfg.1, List.length_pos.mp hfg.2⟩
      · intro _
        rfl
    · constructor
      · intro h
        simp at h
      · rintro ⟨hno, _⟩
        exact absurd ⟨List.length_pos.mp hfg.1, List.length_pos.mp hfg.2⟩ hno
  · have hno : ¬(dir_subsystems fs path lookup ≠ [] ∧
        file_subsystems fs path lookup ≠ []) := by
      intro ⟨hd, hf⟩
      exact hfg ⟨List.length_pos.mpr hd, List.length_pos.mpr hf⟩
    rw [if_neg hfg]
    constructor
    · constructor
      · intro h
        exfalso
        split at h
        · simp at h
        · split at h
          · split at h <;> simp at h
          · split at h <;> simp at h
      · intro hh
        exact absurd hh hno
    · by_cases hmf : (file_subsystems fs path lookup).length > 1
      · rw [if_pos hmf]
        constructor
        · intro _
          exact ⟨hno, hmf⟩
        · intro _
          rfl
      · rw [if_neg hmf]
        constructor
        · intro h
          exfalso
          split at h
          · split at h <;> simp at h
          · split at h <;> simp at h
        · rintro ⟨_, h2⟩
          omega

/-- A mount root with subsystem directories cpu and memory, both holding the
group directory g, and no files or links. -/
def fsTwo : FSState where
  listRoot := ["cpu", "memory"]
  dirs := {["cpu"], ["memory"], ["cpu", "g"], ["memory", "g"]}
  files := ∅
  links := ∅
  membership := fun _ => ∅

/-- C2 witness: the classification theorem applied at a concrete two-subsystem
state where g is a directory in both subsystems and a file in none. -/
theorem interpret_cgroup_path_classification_witness :
    ((["g"] : SPath) ≠ [] ∧
      ¬(dir_subsystems fsTwo ["g"] Option.none ≠ [] ∧
        file_subsystems fsTwo ["g"] Option.none ≠ []) ∧
      (file_subsystems fsTwo ["g"] Option.none).length ≤ 1) ∧
    interpret_cgroup_path fsTwo ["g"] Option.none =
      .ok (interpretSpec fsTwo ["g"] Option.none) :=
  ⟨⟨by decide, by decide, by decide⟩,
    interpret_cgroup_path_classification fsTwo ["g"] Option.none (by decide) (by decide)
      (by decide)⟩

/-- C2 counterexample: at the empty path (the root of every subsystem, which
the data model admits), no ambiguity applies and both in-scope subsystems hold
the path as a directory, yet interpret_cgroup_path raises TypeError out of the
unconditional full_path = os.path.join(*path) instead of returning the claimed
Directory classification. -/
theorem interpret_cgroup_path_empty_path_counterexample :
    interpret_cgroup_path fsTwo [] Option.none =
        .error (.typeError "join missing 1 required positional argument") ∧
      ¬(dir_subsystems fsTwo [] Option.none ≠ [] ∧
        file_subsystems fsTwo [] Option.none ≠ []) ∧
      (file_subsystems fsTwo [] Option.none).length ≤ 1 ∧
      dir_subsystems fsTwo [] Option.none = ["cpu", "memory"] ∧
      interpret_cgroup_path fsTwo [] Option.none ≠
        .ok (.dir (dir_subsystems fsTwo [] Option.none).toFinset) := by
  refine ⟨rfl, by decide, by decide, by decide, ?_⟩
  intro h
  rw [show interpret_cgroup_path fsTwo [] Option.none =
      .error (.typeError "join missing 1 required positional argument") from rfl] at h
  cases h

/-- A mount root whose cpu entry is recorded both as a directory and as a
file, so that at the empty path the ambiguity condition of the claim holds. -/
def fsRootAmbig : FSState where
  listRoot := ["cpu"]
  dirs := {["cpu"]}
  files := {["cpu"]}
  links := ∅
  membership := fun _ => ∅

/-- C3 counterexample: at the empty path the claimed AmbiguityFileOrGroup
condition holds (cpu is in scope and holds the path as both a directory and a
file), yet interpret_cgroup_path raises TypeError out of the unconditional
full_path = os.path.join(*path) before reaching either ambiguity check. -/
theorem interpret_cgroup_path_ambiguity_counterexample :
    interpret_cgroup_path fsRootAmbig [] Option.none =
        .error (.typeError "join missing 1 required positional argument") ∧
      dir_subsystems fsRootAmbig [] Option.none ≠ [] ∧
      file_subsystems fsRootAmbig [] Option.none ≠ [] ∧
      interpret_cgroup_path fsRootAmbig [] Option.none ≠
        .error (.lookupError .AMBIGUITY_FILE_OR_GROUP []) := by
  refine ⟨rfl, by decide, by decide, ?_⟩
  intro h
  rw [show interpret_cgroup_path fsRootAmbig [] Option.none =
      .error (.typeError "join missing 1 required positional argument") from rfl] at h
  injection h with h
  cases h

/-- C3 witness: the ambiguity characterization applied at a concrete
two-subsystem state with the non-empty path g. -/
theorem interpret_cgroup_path_ambiguity_witness :
    (["g"] : SPath) ≠ [] ∧
      ((interpret_cgroup_path fsTwo ["g"] Option.none =
          .error (.lookupError .AMBIGUITY_FILE_OR_GROUP ["g"]) ↔
        dir_subsystems fsTwo ["g"] Option.none ≠ [] ∧
          file_subsystems fsTwo ["g"] Option.none ≠ []) ∧
      (interpret_cgroup_path fsTwo ["g"] Option.none =
          .error (.lookupError .AMBIGUITY_MULTI_FILES ["g"]) ↔
        ¬(dir_subsystems fsTwo ["g"] Option.none ≠ [] ∧
            file_subsystems fsTwo ["g"] Option.none ≠ []) ∧
          2 ≤ (file_subsystems fsTwo ["g"] Option.none).length)) :=
  ⟨by decide, interpret_cgroup_path_ambiguity fsTwo ["g"] Option.none (by decide)⟩

/-!
Tasks and processes: membership-file reads and writes.
-/

/-- ASCII whitespace stripped by Python str.strip() on the data handled here
(space, tab, newline, carriage return, vertical tab, form feed). -/
def pyIsSpace (c : Char) : Bool :=
  c == ' ' || c == '\t' || c == '\n' || c == '\r' ||
    c == Char.ofNat 11 || c == Char.ofNat 12

/-- Python str.strip() with no argument: drop leading and trailing whitespace. -/
def pyStrip (s : String) : String :=
  ⟨((s.data.dropWhile pyIsSpace).reverse.dropWhile pyIsSpace).reverse⟩

/-- Python str.lstrip(chars): drop every leading character that occurs in the
character set chars (not a prefix removal). -/
def pyLstrip (chars : String) (s : String) : String :=
  ⟨s.data.dropWhile fun c => chars.data.contains c⟩

/-- Path of the membership file fname of a group:
subsystem_path(subsystem, *path, fname). -/
def procs_file_path (fname subsystem : String) (path : SPath) : SPath :=
  subsystem_path subsystem (path ++ [fname])

/-- Model of _cgroup_procs(fname, subsystem, *path): open the membership file
and yield one stripped identifier per line; the set of yielded identifiers is
the member set the kernel keeps for that file. -/
def _cgroup_procs (fs : FSState) (fname subsystem : String) (path : SPath) :
    Finset String :=
  fs.membership (procs_file_path fname subsystem path)

/-- One write(2) call on a membership pseudo-file: target file and raw text. -/
structure WriteOp where
  target : SPath
  data : String

/-- The writes performed by _add_procs(fname, subsystem, proc_ids, *path): one
independent write per identifier p, with the single line p + newline (the
f-string), never one batched multi-line write.  proc_ids stands for the output
of _normalize_process_id_list, which renders integer ids as decimal strings. -/
def _add_procs_ops (fname subsystem : String) (proc_ids : List String)
    (path : SPath) : List WriteOp :=
  proc_ids.map fun p => ⟨procs_file_path fname subsystem path, p ++ "\n"⟩

/-- Kernel semantics of one membership-file write: the written text is parsed
as one identifier, surrounding whitespace ignored, and the identifier is added
to the file's member set; prior members stay (writes attach tasks, the open
with mode w does not clear a cgroup pseudo-file). -/
def applyWrite (fs : FSState) (w : WriteOp) : FSState :=
  { fs with
    membership := fun q =>
      if q = w.target then insert (pyStrip w.data) (fs.membership q)
      else fs.membership q }

/-- Apply a sequence of membership-file writes in order. -/
def applyWrites (fs : FSState) (ws : List WriteOp) : FSState := ws.foldl applyWrite fs

/-- _add_procs run against the kernel.  writeErr models the environment: for
each subsystem, some reason when writes into it raise (permissions, invalid
id), none when they succeed; on success every per-identifier write is applied. -/
def _add_procs (writeErr : String → Option String) (fs : FSState)
    (fname subsystem : String) (proc_ids : List String) (path : SPath) :
    Except String FSState :=
  match writeErr subsystem with
  | some e => .error e
  | Option.none => .ok (applyWrites fs (_add_procs_ops fname subsystem proc_ids path))

/-- Write-then-read composite used to state the round-trip behaviour. -/
def add_then_read (writeErr : String → Option String) (fs : FSState)
    (fname subsystem : String) (proc_ids : List String) (path : SPath) :
    Option (Finset String) :=
  (_add_procs writeErr fs fname subsystem proc_ids path).toOption.map
    fun fs' => _cgroup_procs fs' fname subsystem path

/-- Membership after a write sequence: the prior member set united with the
parsed identifiers of the writes aimed at the queried file. -/
theorem applyWrites_membership (ws : List WriteOp) (fs : FSState) (q : SPath) :
    (applyWrites fs ws).membership q =
      fs.membership q ∪
        (((ws.filter fun w => w.target = q).map fun w => pyStrip w.data).toFinset) := by
  induction ws generalizing fs with
  | nil => simp [applyWrites]
  | cons w ws ih =>
    show (applyWrites (applyWrite fs w) ws).membership q = _
    rw [ih]
    by_cases hw : w.target = q
    · have h1 : (applyWrite fs w).membership q = insert (pyStrip w.data) (fs.membership q) := by
        simp only [applyWrite]
        rw [if_pos hw.symm]
      rw [h1, List.filter_cons_of_pos (by simp [hw]), List.map_cons, List.toFinset_cons,
        Finset.insert_union, Finset.union_insert]
    · have h1 : (applyWrite fs w).membership q = fs.membership q := by
        simp only [applyWrite]
        rw [if_neg fun hq => hw hq.symm]
      rw [h1, List.filter_cons_of_neg (by simp [hw])]

/-- Mapping a function that is the identity on every element is the identity. -/
theorem map_eq_self_of_eq {α : Type} {f : α → α} {l : List α}
    (h : ∀ a ∈ l, f a = a) : l.map f = l := by
  induction l with
  | nil => rfl
  | cons a l ih =>
    rw [List.map_cons, h a (by simp), ih fun b hb => h b (by simp [hb])]

/-- C4 (amended): after a successful _add_procs of proc_ids into a subsystem's
membership file, reading membership for that subsystem alone (_cgroup_procs)
returns exactly the union of the group's prior membership with the written
identifier set - so exactly the written set whenever the prior membership is
contained in it, in particular for a group with no members yet - and the
result depends only on the set of identifiers, not their order; moreover the
identifiers go out as one independent single-line write each, never as one
batched multi-line write. -/
theorem add_procs_roundtrip (writeErr : String → Option String) (fs : FSState)
    (fname subsystem : String) (proc_ids : List String) (path : SPath) (fs' : FSState)
    (hids : ∀ p ∈ proc_ids, pyStrip (p ++ "\n") = p)
    (h : _add_procs writeErr fs fname subsystem proc_ids path = .ok fs') :
    _cgroup_procs fs' fname subsystem path =
        fs.membership (procs_file_path fname subsystem path) ∪ proc_ids.toFinset ∧
      (fs.membership (procs_file_path fname subsystem path) ⊆ proc_ids.toFinset →
        _cgroup_procs fs' fname subsystem path = proc_ids.toFinset) ∧
      (_add_procs_ops fname subsystem proc_ids path).length = proc_ids.length ∧
      ∀ w ∈ _add_procs_ops fname subsystem proc_ids path,
        ∃ p ∈ proc_ids, w.data = p ++ "\n" ∧
          w.target = procs_file_path fname subsystem path := by
  unfold _add_procs at h
  cases hw : writeErr subsystem with
  | some e =>
    rw [hw] at h
    cases h
  | none =>
    rw [hw] at h
    injection h with h
    subst h
    have hmain : _cgroup_procs (applyWrites fs (_add_procs_ops fname subsystem proc_ids path))
        fname subsystem path =
        fs.membership (procs_file_path fname subsystem path) ∪ proc_ids.toFinset := by
      unfold _cgroup_procs
      rw [applyWrites_membership]
      congr 1
      have hfilter : (_add_procs_ops fname subsystem proc_ids path).filter
          (fun w => w.target = procs_file_path fname subsystem path) =
          _add_procs_ops fname subsystem proc_ids path := by
        apply List.filter_eq_self.mpr
        intro w hwmem
        obtain ⟨p, hp, rfl⟩ := List.mem_map.mp hwmem
        simp
      rw [hfilter]
      unfold _add_procs_ops
      rw [List.map_map]
      rw [show ((fun w => pyStrip w.data) ∘
          fun p => WriteOp.mk (procs_file_path fname subsystem path) (p ++ "\n")) =
          fun p => pyStrip (p ++ "\n") from rfl]
      rw [map_eq_self_of_eq hids]
    refine ⟨hmain, ?_, ?_, ?_⟩
    · intro hsub
      rw [hmain, Finset.union_eq_right.mpr hsub]
    · simp [_add_procs_ops]
    · intro w hwmem
      obtain ⟨p, hp, rfl⟩ := List.mem_map.mp hwmem
      exact ⟨p, hp, rfl, rfl⟩

/-- A one-subsystem mount root (cpu) with a group g whose membership file
already lists identifier 7. -/
def fsPrior : FSState where
  listRoot := ["cpu"]
  dirs := {["cpu"], ["cpu", "g"]}
  files := ∅
  links := ∅
  membership := fun q => if q = ["cpu", "g", "cgroup.procs"] then {"7"} else ∅

/-- C4 counterexample: writing the id set containing only 1 into group g of
subsystem cpu, whose membership file already lists 7, then reading membership
for cpu alone, returns the two-element set and not exactly the written set. -/
theorem add_procs_roundtrip_counterexample :
    add_then_read (fun _ => Option.none) fsPrior "cgroup.procs" "cpu" ["1"] ["g"] =
        some {"1", "7"} ∧
      ¬({"1", "7"} : Finset String) = {"1"} := by decide

/-- C4 witness: the amended round-trip theorem applied at a concrete state. -/
theorem add_procs_roundtrip_witness :
    (∀ p ∈ ["1", "2"], pyStrip (p ++ "\n") = p) ∧
      _cgroup_procs (applyWrites fsPrior (_add_procs_ops "cgroup.procs" "cpu" ["1", "2"] ["g"]))
          "cgroup.procs" "cpu" ["g"] =
        fsPrior.membership (procs_file_path "cgroup.procs" "cpu" ["g"]) ∪
          (["1", "2"] : List String).toFinset :=
  ⟨by decide,
    (add_procs_roundtrip (fun _ => Option.none) fsPrior "cgroup.procs" "cpu" ["1", "2"]
      ["g"] _ (by decide) rfl).1⟩

/-- _subsystems_cgroup_procs_intersection(fname, *path, lookup_subsystems):
ret = set(), then ret.intersection_update(read of each in-scope subsystem). -/
def _subsystems_cgroup_procs_intersection (fs : FSState) (fname : String)
    (path : SPath) (lookup_subsystems : Option (List String)) : Finset String :=
  (iter_subsystems fs lookup_subsystems false).foldl
    (fun ret s => ret ∩ _cgroup_procs fs fname s path) ∅

/-- Folding intersections from the empty set stays empty. -/
theorem foldl_inter_from_empty {α : Type} [DecidableEq α] (f : String → Finset α) :
    ∀ l : List String, l.foldl (fun ret s => ret ∩ f s) ∅ = ∅
  | [] => rfl
  | s :: l => by
    rw [List.foldl_cons, Finset.empty_inter]
    exact foldl_inter_from_empty f l

/-- C9: the accumulator of _subsystems_cgroup_procs_intersection is seeded
with the empty set and only ever updated by intersection, so the function
returns the empty set for every state, membership kind, path and lookup set. -/
theorem subsystems_cgroup_procs_intersection_empty (fs : FSState) (fname : String)
    (path : SPath) (lookup : Option (List String)) :
    _subsystems_cgroup_procs_intersection fs fname path lookup = ∅ := by
  unfold _subsystems_cgroup_procs_intersection
  exact foldl_inter_from_empty _ _

/-- C1: evaluation at the failing input: a single in-scope subsystem cpu whose
membership file for group g lists exactly the identifier 7.  The intersection
of the individual membership reads is the singleton set, but
_subsystems_cgroup_procs_intersection returns the empty set. -/
theorem subsystems_cgroup_procs_intersection_failing_input :
    _cgroup_procs fsPrior "cgroup.procs" "cpu" ["g"] = {"7"} ∧
      _subsystems_cgroup_procs_intersection fsPrior "cgroup.procs" ["g"] Option.none = ∅ ∧
      ({"7"} : Finset String) ≠ ∅ := by decide

/-- One iteration of the _subsystems_add_procs loop over in-scope subsystems:
try _add_procs for subsystem s; on success keep the new state, on exception
record (s, reason) at the end of the failed mapping. -/
def _subsystems_add_procs_step (writeErr : String → Option String)
    (fname : String) (proc_ids : List String) (path : SPath)
    (acc : FSState × List (String × String)) (s : String) :
    FSState × List (String × String) :=
  match _add_procs writeErr acc.1 fname s proc_ids path with
  | .ok fs' => (fs', acc.2)
  | .error e => (acc.1, acc.2 ++ [(s, e)])

/-- _subsystems_add_procs(fname, proc_ids, *path, lookup_subsystems): attempt
_add_procs for every in-scope subsystem, collecting per-subsystem failure
reasons; returns the final state and the failed mapping in insertion order. -/
def _subsystems_add_procs (writeErr : String → Option String) (fs : FSState)
    (fname : String) (proc_ids : List String) (path : SPath)
    (lookup_subsystems : Option (List String)) :
    FSState × List (String × String) :=
  (iter_subsystems fs lookup_subsystems false).foldl
    (_subsystems_add_procs_step writeErr fname proc_ids path) (fs, [])

/-- The members of the enum CGroupAccessViolation.Type in errors.py. -/
inductive CGroupAccessViolationType
  | FAILED_WRITE
deriving DecidableEq

/-- Caller-facing outcome of _subsystems_add_procs: raise
CGroupAccessViolation(FAILED_WRITE, failed) when failed is non-empty, else
return normally; the filesystem state persists either way and is carried in
the pair component of _subsystems_add_procs. -/
def _subsystems_add_procs_result (writeErr : String → Option String) (fs : FSState)
    (fname : String) (proc_ids : List String) (path : SPath)
    (lookup_subsystems : Option (List String)) :
    Except (CGroupAccessViolationType × List (String × String)) FSState :=
  if (_subsystems_add_procs writeErr fs fname proc_ids path lookup_subsystems).2 = [] then
    .ok (_subsystems_add_procs writeErr fs fname proc_ids path lookup_subsystems).1
  else
    .error (.FAILED_WRITE,
      (_subsystems_add_procs writeErr fs fname proc_ids path lookup_subsystems).2)

/-- The failed mapping accumulated by the loop: the prior entries followed by
one entry per failing subsystem, in iteration order. -/
theorem subsystems_add_procs_fold_failed (writeErr : String → Option String)
    (fname : String) (proc_ids : List String) (path : SPath) :
    ∀ (subs : List String) (fs : FSState) (r : List (String × String)),
      (subs.foldl (_subsystems_add_procs_step writeErr fname proc_ids path) (fs, r)).2 =
        r ++ subs.filterMap fun s => (writeErr s).map fun e => (s, e)
  | [], fs, r => by simp
  | s :: subs, fs, r => by
    rw [List.foldl_cons]
    cases hw : writeErr s with
    | none =>
      have hstep : _subsystems_add_procs_step writeErr fname proc_ids path (fs, r) s =
          (applyWrites fs (_add_procs_ops fname s proc_ids path), r) := by
        unfold _subsystems_add_procs_step _add_procs
        rw [hw]
      rw [hstep,
        List.filterMap_cons_none (by simp [hw]),
        subsystems_add_procs_fold_failed writeErr fname proc_ids path subs _ r]
    | some e =>
      have hstep : _subsystems_add_procs_step writeErr fname proc_ids path (fs, r) s =
          (fs, r ++ [(s, e)]) := by
        unfold _subsystems_add_procs_step _add_procs
        rw [hw]
      rw [hstep,
        subsystems_add_procs_fold_failed writeErr fname proc_ids path subs fs (r ++ [(s, e)])]
      simp [List.filterMap_cons, hw]

/-- Membership of subsystem s0's membership file after the loop: unchanged
unless s0 is in scope and its write succeeds, in which case the parsed written
identifiers are united in. -/
theorem subsystems_add_procs_fold_membership (writeErr : String → Option String)
    (fname : String) (proc_ids : List String) (path : SPath) (s0 : String)
    (h0 : writeErr s0 = Option.none) :
    ∀ (subs : List String) (fs : FSState) (r : List (String × String)),
      ((subs.foldl (_subsystems_add_procs_step writeErr fname proc_ids path) (fs, r)).1).membership
          (procs_file_path fname s0 path) =
        fs.membership (procs_file_path fname s0 path) ∪
          (if s0 ∈ subs then (proc_ids.map fun p => pyStrip (p ++ "\n")).toFinset else ∅)
  | [], fs, r => by simp
  | s :: subs, fs, r => by
    rw [List.foldl_cons]
    cases hw : writeErr s with
    | some e =>
      have hne : s0 ≠ s := by
        intro hh
        rw [hh, hw] at h0
        cases h0
      have hstep : _subsystems_add_procs_step writeErr fname proc_ids path (fs, r) s =
          (fs, r ++ [(s, e)]) := by
        unfold _subsystems_add_procs_step _add_procs
        rw [hw]
      rw [hstep,
        subsystems_add_procs_fold_membership writeErr fname proc_ids path s0 h0 subs fs _]
      congr 1
      have hiff : (s0 ∈ subs) ↔ (s0 ∈ s :: subs) := by
        rw [List.mem_cons]
        constructor
        · exact Or.inr
        · intro hh
          rcases hh with hh | hh
          · exact absurd hh hne
          · exact hh
      rw [if_congr hiff rfl rfl]
    | none =>
      have hstep : _subsystems_add_procs_step writeErr fname proc_ids path (fs, r) s =
          (applyWrites fs (_add_procs_ops fname s proc_ids path), r) := by
        unfold _subsystems_add_procs_step _add_procs
        rw [hw]
      rw [hstep,
        subsystems_add_procs_fold_membership writeErr fname proc_ids path s0 h0 subs _ r,
        applyWrites_membership]
      by_cases hss : s = s0
      · subst hss
        have hfilter : (_add_procs_ops fname s proc_ids path).filter
            (fun w => w.target = procs_file_path fname s path) =
            _add_procs_ops fname s proc_ids path := by
          apply List.filter_eq_self.mpr
          intro w hwmem
          obtain ⟨p, hp, rfl⟩ := List.mem_map.mp hwmem
          simp
        rw [hfilter]
        unfold _add_procs_ops
        rw [List.map_map,
          show ((fun w => pyStrip w.data) ∘
            fun p => WriteOp.mk (procs_file_path fname s path) (p ++ "\n")) =
            fun p => pyStrip (p ++ "\n") from rfl,
          if_pos (List.mem_cons_self s subs)]
        by_cases hmem : s ∈ subs
        · rw [if_pos hmem, Finset.union_assoc, Finset.union_self]
        · rw [if_neg hmem, Finset.union_empty]
      · have hfilter : (_add_procs_ops fname s proc_ids path).filter
            (fun w => w.target = procs_file_path fname s0 path) = [] := by
          rw [List.filter_eq_nil_iff]
          intro w hwmem
          obtain ⟨p, hp, rfl⟩ := List.mem_map.mp hwmem
          simp only [decide_eq_true_eq]
          intro hh
          unfold procs_file_path subsystem_path at hh
          injection hh with hh1 hh2
          exact hss hh1
        rw [hfilter]
        simp only [List.map_nil, List.toFinset_nil, Finset.union_empty]
        congr 1
        have hiff : (s0 ∈ subs) ↔ (s0 ∈ s :: subs) := by
          rw [List.mem_cons]
          constructor
          · exact Or.inr
          · intro hh
            rcases hh with hh | hh
            · exact absurd hh fun hhh => hss hhh.symm
            · exact hh
        rw [if_congr hiff rfl rfl]

/-- C5: _subsystems_add_procs attempts the write independently in every
in-scope subsystem; the failure report lists exactly the in-scope subsystems
whose write raised, each with its reason; a subsystem whose write succeeded
keeps the written membership even when a sibling subsystem failed (no
rollback); and the caller-facing operation raises
CGroupAccessViolation(FAILED_WRITE, report) iff the report is non-empty,
returning normally iff every in-scope write succeeded. -/
theorem subsystems_add_procs_spec (writeErr : String → Option String) (fs : FSState)
    (fname : String) (proc_ids : List String) (path : SPath)
    (lookup : Option (List String))
    (hids : ∀ p ∈ proc_ids, pyStrip (p ++ "\n") = p) :
    (_subsystems_add_procs writeErr fs fname proc_ids path lookup).2 =
        (iter_subsystems fs lookup false).filterMap
          (fun s => (writeErr s).map fun e => (s, e)) ∧
      (∀ s ∈ iter_subsystems fs lookup false, writeErr s = Option.none →
        ((_subsystems_add_procs writeErr fs fname proc_ids path lookup).1).membership
            (procs_file_path fname s path) =
          fs.membership (procs_file_path fname s path) ∪ proc_ids.toFinset) ∧
      (_subsystems_add_procs_result writeErr fs fname proc_ids path lookup =
          .error (.FAILED_WRITE,
            (_subsystems_add_procs writeErr fs fname proc_ids path lookup).2) ↔
        (_subsystems_add_procs writeErr fs fname proc_ids path lookup).2 ≠ []) ∧
      (_subsystems_add_procs_result writeErr fs fname proc_ids path lookup =
          .ok (_subsystems_add_procs writeErr fs fname proc_ids path lookup).1 ↔
        ∀ s ∈ iter_subsystems fs lookup false, writeErr s = Option.none) := by
  have h1 : (_subsystems_add_procs writeErr fs fname proc_ids path lookup).2 =
      (iter_subsystems fs lookup false).filterMap
        (fun s => (writeErr s).map fun e => (s, e)) := by
    unfold _subsystems_add_procs
    rw [subsystems_add_procs_fold_failed writeErr fname proc_ids path
      (iter_subsystems fs lookup false) fs []]
    simp
  have hempty : (_subsystems_add_procs writeErr fs fname proc_ids path lookup).2 = [] ↔
      ∀ s ∈ iter_subsystems fs lookup false, writeErr s = Option.none := by
    rw [h1, List.filterMap_eq_nil_iff]
    constructor
    · intro hh s hs
      have h2 := hh s hs
      cases hwe : writeErr s with
      | none => rfl
      | some e =>
        rw [hwe] at h2
        simp at h2
    · intro hh s hs
      rw [hh s hs]
      rfl
  refine ⟨h1, ?_, ?_, ?_⟩
  · intro s hs hnone
    unfold _subsystems_add_procs
    rw [subsystems_add_procs_fold_membership writeErr fname proc_ids path s hnone
      (iter_subsystems fs lookup false) fs [], if_pos hs, map_eq_self_of_eq hids]
  · unfold _subsystems_add_procs_result
    by_cases hrep : (_subsystems_add_procs writeErr fs fname proc_ids path lookup).2 = []
    · rw [if_pos hrep]
      constructor
      · intro hh
        cases hh
      · intro hh
        exact absurd hrep hh
    · rw [if_neg hrep]
      exact ⟨fun _ => hrep, fun _ => rfl⟩
  · unfold _subsystems_add_procs_result
    by_cases hrep : (_subsystems_add_procs writeErr fs fname proc_ids path lookup).2 = []
    · rw [if_pos hrep]
      exact ⟨fun _ => hempty.mp hrep, fun _ => rfl⟩
    · rw [if_neg hrep]
      constructor
      · intro hh
        cases hh
      · intro hh
        exact absurd (hempty.mpr hh) hrep

/-- A write environment where writes into the memory subsystem raise with a
permission reason and every other subsystem accepts writes. -/
def writeErrW : String → Option String :=
  fun s => if s = "memory" then some "denied" else Option.none

/-- C5 witness: the aggregation theorem applied at a concrete two-subsystem
state where the memory write fails and the cpu write succeeds. -/
theorem subsystems_add_procs_spec_witness :
    (∀ p ∈ ["5"], pyStrip (p ++ "\n") = p) ∧
      (_subsystems_add_procs writeErrW fsTwo "tasks" ["5"] ["g"] Option.none).2 =
        (iter_subsystems fsTwo Option.none false).filterMap
          (fun s => (writeErrW s).map fun e => (s, e)) :=
  ⟨by decide,
    (subsystems_add_procs_spec writeErrW fsTwo "tasks" ["5"] ["g"] Option.none
      (by decide)).1⟩

/-!
Path validation and creation: validate_subsystem_path.
-/

/-- os.makedirs(p, exist_ok=True): create every missing directory on the
chain down to p; raises (an OSError such as FileExistsError or
NotADirectoryError) when a component of the chain exists as a file. -/
def makedirs (fs : FSState) (p : SPath) : Except PyExc FSState :=
  if ∃ a ∈ p.inits, a ≠ [] ∧ a ∈ fs.files then .error (.osError p)
  else .ok { fs with dirs := fs.dirs ∪ (p.inits.filter fun a => !a.isEmpty).toFinset }

/-- validate_subsystem_path(subsystem, *path, create): when the computed path
is a file, raise CGroupLookupError with the member written in the source as
CGroupLookupError.Type.FILE_INSTEAD_OF_FOLDER, resolved here by name against
the members errors.py actually defines; else raise GROUP_NOT_EXISTS when the
path is no directory and create is false, or create the whole missing chain;
finally, for the cpuset subsystem, run the inheritance fix-up
init_cgroup_settings_from_parents - its outcome depends on configuration-file
contents outside this claim, so it is a parameter cpusetFix - and return the
state with the absolute path. -/
def validate_subsystem_path (cpusetFix : FSState → SPath → Except PyExc FSState)
    (fs : FSState) (subsystem : String) (path : SPath) (create : Bool) :
    Except PyExc (FSState × SPath) :=
  if fs.isfile (subsystem_path subsystem path) then
    .error (match lookupErrorTypeAttr "FILE_INSTEAD_OF_FOLDER" with
      | some t => .lookupError t (subsystem_path subsystem path)
      | Option.none => .attributeError "FILE_INSTEAD_OF_FOLDER")
  else
    match (if fs.isdir (subsystem_path subsystem path) then .ok fs
      else if !create then
        .error (.lookupError .GROUP_NOT_EXISTS (subsystem_path subsystem path))
      else makedirs fs (subsystem_path subsystem path) :
        Except PyExc FSState) with
    | .error e => .error e
    | .ok fs1 =>
      if subsystem = "cpuset" then
        match cpusetFix fs1 path with
        | .error e => .error e
        | .ok fs2 => .ok (fs2, subsystem_path subsystem path)
      else .ok (fs1, subsystem_path subsystem path)

/-- A one-subsystem mount root (cpu) where f is a file under cpu. -/
def fsFile : FSState where
  listRoot := ["cpu"]
  dirs := {["cpu"]}
  files := {["cpu", "f"]}
  links := ∅
  membership := fun _ => ∅

/-- C6: evaluation at the failing input: the computed path exists and is a
file.  path.py line 133 names the member FILE_INSTEAD_OF_FOLDER, which the
enum CGroupLookupError.Type of errors.py does not define (it defines
FILE_INSTEAD_OF_GROUP, used correctly by delete_cgroup), so the attribute
lookup itself fails and the call raises AttributeError instead of the claimed
FileInsteadOfGroup lookup error, for any create flag and any cpuset fix-up. -/
theorem validate_subsystem_path_failing_input :
    validate_subsystem_path (fun fs _ => .ok fs) fsFile "cpu" ["f"] false =
        .error (.attributeError "FILE_INSTEAD_OF_FOLDER") ∧
      validate_subsystem_path (fun fs _ => .ok fs) fsFile "cpu" ["f"] true =
        .error (.attributeError "FILE_INSTEAD_OF_FOLDER") ∧
      lookupErrorTypeAttr "FILE_INSTEAD_OF_FOLDER" = Option.none ∧
      lookupErrorTypeAttr "FILE_INSTEAD_OF_GROUP" =
        some CGroupLookupErrorType.FILE_INSTEAD_OF_GROUP :=
  ⟨rfl, rfl, by decide, by decide⟩

/-!
Task-to-cgroup reverse lookup: task_cgroups.
-/

/-- Python str.split(sep) for a one-character separator, over the characters,
with the pending field accumulated in reverse. -/
def pySplitAux (sep : Char) : List Char → List Char → List String
  | [], cur => [⟨cur.reverse⟩]
  | c :: cs, cur =>
    if c = sep then ⟨cur.reverse⟩ :: pySplitAux sep cs []
    else pySplitAux sep cs (c :: cur)

/-- Python str.split(sep) for a one-character separator. -/
def pySplit (sep : Char) (s : String) : List String := pySplitAux sep s.data []

/-- Insertion into the result dict of task_cgroups: extend the set stored at
an existing key, else append a new singleton entry (dict insertion order). -/
def dictAdd (res : List (String × Finset String)) (k v : String) :
    List (String × Finset String) :=
  if res.any fun kv => kv.1 = k then
    res.map fun kv => if kv.1 = k then (kv.1, insert v kv.2) else kv
  else res ++ [(k, {v})]

/-- One line of /proc/PID/cgroup: strip the line, split on colons into
hierarchyId, subsystem and path (a ValueError, modelled as none, unless there
are exactly three fields), then subsystem.lstrip(name=) and
path.lstrip(os.path.sep). -/
def parse_cgroup_line (l : String) : Option (String × String) :=
  match pySplit ':' (pyStrip l) with
  | [_, subsystem, path] => some (pyLstrip "name=" subsystem, pyLstrip "/" path)
  | _ => Option.none

/-- task_cgroups(task), applied to the lines of /proc/PID/cgroup: the mapping
from each parsed path to the set of parsed subsystems listed for it. -/
def task_cgroups (data : List String) : Option (List (String × Finset String)) :=
  data.foldlM (fun res l => (parse_cgroup_line l).map fun sp => dictAdd res sp.2 sp.1) []

/-- C8: evaluation at the failing input: in the line 4:memory:/a the subsystem
field goes through subsystem.lstrip(name=), which removes every leading
character drawn from the character set of name= rather than the single prefix
name=, so the field memory is mangled to ory: the result maps a to the
singleton of ory, not to the singleton of memory as the claim states.  A field
that does carry the name= prefix, as in 1:name=systemd:/x, happens to come out
right, which is the evident intent. -/
theorem task_cgroups_failing_input :
    task_cgroups ["4:memory:/a"] = some [("a", {"ory"})] ∧
      task_cgroups ["4:memory:/a"] ≠ some [("a", {"memory"})] ∧
      task_cgroups ["1:name=systemd:/x"] = some [("x", {"systemd"})] := by decide

/-!
Cleanup: delete_cgroup and the os.removedirs ancestor pruning.
-/

/-- The existing entries of the filesystem: directories and files. -/
def FSState.entries (fs : FSState) : Finset SPath := fs.dirs ∪ fs.files

/-- q is a direct child entry of p. -/
def isChildOf (q p : SPath) : Prop := p <+: q ∧ q.length = p.length + 1

instance (q p : SPath) : Decidable (isChildOf q p) := by
  unfold isChildOf
  infer_instance

/-- os.rmdir(p) succeeds iff p is a directory with no entry inside it. -/
def rmdirOk (fs : FSState) (p : SPath) : Prop :=
  p ∈ fs.dirs ∧ ∀ q ∈ fs.entries, ¬ isChildOf q p

instance (fs : FSState) (p : SPath) : Decidable (rmdirOk fs p) := by
  unfold rmdirOk
  infer_instance

/-- Remove one directory from the state. -/
def removeDir (fs : FSState) (p : SPath) : FSState :=
  { fs with dirs := fs.dirs.erase p }

/-- The ancestor-pruning loop of os.removedirs: os.path.split peels the last
segment, and the loop rmdirs each head while that succeeds, stopping at the
first failure or at the mount root.  The fuel argument, always instantiated
with the chain length, makes the recursion structural. -/
def removedirsAuxFuel : Nat → FSState → SPath → FSState
  | 0, fs, _ => fs
  | n + 1, fs, q =>
    if q = [] then fs
    else if rmdirOk fs q then removedirsAuxFuel n (removeDir fs q) q.dropLast
    else fs

/-- The ancestor-pruning loop, started on a chain position. -/
def removedirsAux (fs : FSState) (q : SPath) : FSState :=
  removedirsAuxFuel q.length fs q

/-- os.removedirs(p): rmdir the leaf (a failure there propagates as OSError),
then prune the newly empty ancestors up the chain. -/
def removedirs (fs : FSState) (p : SPath) : Option FSState :=
  if rmdirOk fs p then some (removedirsAux (removeDir fs p) p.dropLast)
  else Option.none

/-- delete_cgroup(subsystem, *path): refuse files, links and missing paths,
then os.removedirs the group directory; an OSError out of removedirs (for
example a non-empty group) propagates. -/
def delete_cgroup (fs : FSState) (subsystem : String) (path : SPath) :
    Except PyExc FSState :=
  if fs.isfile (subsystem_path subsystem path) then
    .error (.lookupError .FILE_INSTEAD_OF_GROUP (subsystem_path subsystem path))
  else if fs.islink (subsystem_path subsystem path) then
    .error (.lookupError .LINK (subsystem_path subsystem path))
  else if !fs.pathExists (subsystem_path subsystem path) then
    .error (.lookupError .NOT_EXISTS (subsystem_path subsystem path))
  else
    match removedirs fs (subsystem_path subsystem path) with
    | some fs' => .ok fs'
    | Option.none => .error (.osError (subsystem_path subsystem path))

/-- Well-formedness of a state: every nonempty proper prefix of an existing
entry is itself a directory. -/
def Closed (fs : FSState) : Prop :=
  ∀ d ∈ fs.entries, ∀ a ∈ d.inits, a ≠ [] → a ≠ d → a ∈ fs.dirs

instance (fs : FSState) : Decidable (Closed fs) := by
  unfold Closed
  infer_instance

/-- A proper prefix is a prefix of the dropLast. -/
theorem prefix_dropLast_of_proper {a q : SPath} (h : a <+: q) (hne : a ≠ q) :
    a <+: q.dropLast := by
  have hlt : a.length < q.length :=
    lt_of_le_of_ne h.length_le fun hl => hne (List.IsPrefix.eq_of_length h hl)
  rw [List.dropLast_eq_take]
  have h2 : (q.take (q.length - 1)).take a.length = a := by
    rw [List.take_take]
    have hm : min a.length (q.length - 1) = a.length := by omega
    rw [hm, ← List.prefix_iff_eq_take.mp h]
  have h3 := List.take_prefix a.length (q.take (q.length - 1))
  rwa [h2] at h3

/-- The next chain element below a strict prefix: take one segment more; it is
a direct child of a and still a prefix of q. -/
theorem take_succ_child {a q : SPath} (h : a <+: q) (hlt : a.length < q.length) :
    isChildOf (q.take (a.length + 1)) a ∧ q.take (a.length + 1) <+: q ∧
      q.take (a.length + 1) ≠ [] := by
  have hlen : (q.take (a.length + 1)).length = a.length + 1 := by
    rw [List.length_take]
    omega
  have hpre : a <+: q.take (a.length + 1) := by
    have h2 : (q.take (a.length + 1)).take a.length = a := by
      rw [List.take_take]
      have hm : min a.length (a.length + 1) = a.length := by omega
      rw [hm, ← List.prefix_iff_eq_take.mp h]
    have h3 := List.take_prefix a.length (q.take (a.length + 1))
    rwa [h2] at h3
  refine ⟨⟨hpre, hlen⟩, List.take_prefix _ _, ?_⟩
  intro hnil
  rw [hnil] at hlen
  simp at hlen

/-- The pruning loop never touches the files. -/
theorem removedirsAuxFuel_files : ∀ (n : Nat) (fs : FSState) (q : SPath),
    (removedirsAuxFuel n fs q).files = fs.files
  | 0, fs, q => rfl
  | n + 1, fs, q => by
    unfold removedirsAuxFuel
    split
    · rfl
    · split
      · rw [removedirsAuxFuel_files n]
        rfl
      · rfl

/-- The pruning loop only erases directories, and everything it erases is a
nonempty prefix of the chain position it starts from. -/
theorem removedirsAuxFuel_dirs : ∀ (n : Nat) (fs : FSState) (q : SPath),
    (removedirsAuxFuel n fs q).dirs ⊆ fs.dirs ∧
      ∀ d ∈ fs.dirs, d ∉ (removedirsAuxFuel n fs q).dirs → d <+: q ∧ d ≠ []
  | 0, fs, q => ⟨Finset.Subset.refl _, fun d hd hnd => absurd hd hnd⟩
  | n + 1, fs, q => by
    unfold removedirsAuxFuel
    split
    · exact ⟨Finset.Subset.refl _, fun d hd hnd => absurd hd hnd⟩
    · split
      · rename_i hq hok
        obtain ⟨ih1, ih2⟩ := removedirsAuxFuel_dirs n (removeDir fs q) q.dropLast
        constructor
        · exact ih1.trans (Finset.erase_subset _ _)
        · intro d hd hnd
          by_cases hdq : d = q
          · subst hdq
            exact ⟨List.prefix_refl d, hq⟩
          · have hd' : d ∈ (removeDir fs q).dirs := Finset.mem_erase.mpr ⟨hdq, hd⟩
            obtain ⟨hpre, hne⟩ := ih2 d hd' hnd
            exact ⟨hpre.trans (List.dropLast_prefix q), hne⟩
      · exact ⟨Finset.Subset.refl _, fun d hd hnd => absurd hd hnd⟩

/-- Erasing an empty directory keeps the state well-formed. -/
theorem Closed.removeDir {fs : FSState} {q : SPath} (hclos : Closed fs)
    (hok : rmdirOk fs q) : Closed (PyCGroups.removeDir fs q) := by
  intro d hd a ha hane had
  have hdent : d ∈ fs.entries := by
    simp only [FSState.entries, PyCGroups.removeDir, Finset.mem_union] at hd
    rcases hd with hh | hh
    · exact Finset.mem_union_left _ (Finset.mem_of_mem_erase hh)
    · exact Finset.mem_union_right _ hh
  have hadir : a ∈ fs.dirs := hclos d hdent a ha hane had
  show a ∈ (fs.dirs.erase q)
  refine Finset.mem_erase.mpr ⟨?_, hadir⟩
  intro haq
  have hpre : a <+: d := (List.mem_inits a d).mp ha
  have hlt : a.length < d.length :=
    lt_of_le_of_ne hpre.length_le fun hl => had (List.IsPrefix.eq_of_length hpre hl)
  obtain ⟨hchild, hbpre, hbne⟩ := take_succ_child hpre hlt
  have hbent : d.take (a.length + 1) ∈ fs.entries := by
    by_cases hbd : d.take (a.length + 1) = d
    · rw [hbd]
      exact hdent
    · have : d.take (a.length + 1) ∈ fs.dirs :=
        hclos d hdent _ ((List.mem_inits _ d).mpr hbpre) hbne hbd
      exact Finset.mem_union_left _ this
  have hchild' : isChildOf (d.take (a.length + 1)) q := by
    rw [← haq]
    exact hchild
  exact hok.2 _ hbent hchild'

/-- In a well-formed state, the parent of a directory on a nonempty chain is
still a directory after the directory itself is erased. -/
theorem dropLast_mem_removeDir {fs : FSState} {t : SPath} (hclos : Closed fs)
    (ht : t ∈ fs.dirs) (htne : t ≠ []) :
    t.dropLast ≠ [] → t.dropLast ∈ (removeDir fs t).dirs := by
  intro hdne
  have hdp : t.dropLast <+: t := List.dropLast_prefix t
  have hdq : t.dropLast ≠ t := by
    intro hh
    have hl := congrArg List.length hh
    rw [List.length_dropLast] at hl
    have hqpos : 0 < t.length := List.length_pos.mpr htne
    omega
  have hmem : t.dropLast ∈ fs.dirs :=
    hclos t (Finset.mem_union_left _ ht) _ ((List.mem_inits _ _).mpr hdp) hdne hdq
  exact Finset.mem_erase.mpr ⟨hdq, hmem⟩

/-- Every nonempty prefix of the chain position that survives the pruning loop
still has a child among the remaining entries, provided the state is
well-formed and the position, when nonempty, is a directory. -/
theorem removedirsAuxFuel_ancestors : ∀ (n : Nat) (fs : FSState) (q : SPath),
    Closed fs → (q ≠ [] → q ∈ fs.dirs) → q.length ≤ n →
    ∀ a, a ≠ [] → a <+: q → a ∈ (removedirsAuxFuel n fs q).dirs →
      ∃ c ∈ (removedirsAuxFuel n fs q).entries, isChildOf c a
  | 0, fs, q, _, _, hlen, a, hane, hpre, _ => by
    have hq0 : q = [] := List.length_eq_zero.mp (Nat.le_zero.mp hlen)
    subst hq0
    exact absurd (List.prefix_nil.mp hpre) hane
  | n + 1, fs, q, hclos, hq, hlen, a, hane, hpre, hmem => by
    simp only [removedirsAuxFuel] at hmem ⊢
    by_cases hqnil : q = []
    · subst hqnil
      exact absurd (List.prefix_nil.mp hpre) hane
    · rw [if_neg hqnil] at hmem ⊢
      have hqdir : q ∈ fs.dirs := hq hqnil
      by_cases hok : rmdirOk fs q
      · rw [if_pos hok] at hmem ⊢
        have hclos' : Closed (removeDir fs q) := hclos.removeDir hok
        have hq' : q.dropLast ≠ [] → q.dropLast ∈ (removeDir fs q).dirs :=
          dropLast_mem_removeDir hclos hqdir hqnil
        have hlen' : q.dropLast.length ≤ n := by
          rw [List.length_dropLast]
          omega
        by_cases haq : a = q
        · exfalso
          obtain ⟨hsub, _⟩ := removedirsAuxFuel_dirs n (removeDir fs q) q.dropLast
          have hmem' : a ∈ (removeDir fs q).dirs := hsub hmem
          rw [haq] at hmem'
          exact Finset.not_mem_erase q fs.dirs hmem'
        · exact removedirsAuxFuel_ancestors n (removeDir fs q) q.dropLast hclos' hq'
            hlen' a hane (prefix_dropLast_of_proper hpre haq) hmem
      · rw [if_neg hok] at hmem ⊢
        have hchild : ∃ c ∈ fs.entries, isChildOf c q := by
          unfold rmdirOk at hok
          push_neg at hok
          exact hok hqdir
        obtain ⟨c, hcent, hcq⟩ := hchild
        by_cases haq : a = q
        · refine ⟨c, hcent, ?_⟩
          rw [haq]
          exact hcq
        · have hlt : a.length < q.length :=
            lt_of_le_of_ne hpre.length_le fun hl => haq (List.IsPrefix.eq_of_length hpre hl)
          obtain ⟨hchild', hbpre, hbne⟩ := take_succ_child hpre hlt
          have hbent : q.take (a.length + 1) ∈ fs.entries := by
            by_cases hbq : q.take (a.length + 1) = q
            · rw [hbq]
              exact Finset.mem_union_left _ hqdir
            · exact Finset.mem_union_left _
                (hclos q (Finset.mem_union_left _ hqdir) _
                  ((List.mem_inits _ _).mpr hbpre) hbne hbq)
          exact ⟨_, hbent, hchild'⟩

/-- C10: when delete_cgroup succeeds on a well-formed state it removes the
target group directory, touches no file, removes no directory other than the
target and its ancestors, and prunes every ancestor that became empty: any
surviving proper ancestor of the target still has a child entry afterwards
(os.removedirs semantics - parent group directories are not guaranteed to
survive a deletion). -/
theorem delete_cgroup_removes_empty_ancestors (fs : FSState) (subsystem : String)
    (path : SPath) (fs' : FSState) (hclos : Closed fs)
    (h : delete_cgroup fs subsystem path = .ok fs') :
    subsystem_path subsystem path ∉ fs'.dirs ∧
      fs'.files = fs.files ∧
      fs'.dirs ⊆ fs.dirs ∧
      (∀ d ∈ fs.dirs, d ∉ fs'.dirs → d <+: subsystem_path subsystem path) ∧
      (∀ a, a ≠ [] → a <+: subsystem_path subsystem path →
        a ≠ subsystem_path subsystem path → a ∈ fs'.dirs →
        ∃ c ∈ fs'.entries, isChildOf c a) := by
  unfold delete_cgroup at h
  split at h
  · cases h
  · split at h
    · cases h
    · split at h
      · cases h
      · split at h
        · rename_i fs'' hrm
          injection h with h
          subst h
          unfold removedirs at hrm
          split at hrm
          · rename_i hok
            injection hrm with hrm
            subst hrm
            unfold removedirsAux
            have htne : subsystem_path subsystem path ≠ [] := by
              unfold subsystem_path
              simp
            obtain ⟨hsub, hrem⟩ := removedirsAuxFuel_dirs
              (subsystem_path subsystem path).dropLast.length
              (removeDir fs (subsystem_path subsystem path))
              (subsystem_path subsystem path).dropLast
            refine ⟨?_, ?_, ?_, ?_, ?_⟩
            · intro hmem
              exact Finset.not_mem_erase (subsystem_path subsystem path) fs.dirs (hsub hmem)
            · rw [removedirsAuxFuel_files]
              rfl
            · exact hsub.trans (Finset.erase_subset _ _)
            · intro d hd hnd
              by_cases hdt : d = subsystem_path subsystem path
              · rw [hdt]
              · have hd' : d ∈ (removeDir fs (subsystem_path subsystem path)).dirs :=
                  Finset.mem_erase.mpr ⟨hdt, hd⟩
                obtain ⟨hpre, _⟩ := hrem d hd' hnd
                exact hpre.trans (List.dropLast_prefix _)
            · intro a hane hpre hne hmem
              exact removedirsAuxFuel_ancestors _ _ _
                (hclos.removeDir hok)
                (dropLast_mem_removeDir hclos hok.1 htne)
                (le_refl _) a hane (prefix_dropLast_of_proper hpre hne) hmem
          · cases hrm
        · cases h

/-- A one-subsystem mount root (cpu) holding the group chain a/b, with b and a
otherwise empty, so that deleting a/b prunes the whole chain. -/
def fsDel : FSState where
  listRoot := ["cpu"]
  dirs := {["cpu"], ["cpu", "a"], ["cpu", "a", "b"]}
  files := ∅
  links := ∅
  membership := fun _ => ∅

/-- C10 witness: the deletion theorem applied at a concrete state where the
group a/b is deleted and the emptied ancestors disappear with it. -/
theorem delete_cgroup_removes_empty_ancestors_witness :
    Closed fsDel ∧
      subsystem_path "cpu" ["a", "b"] ∉
        (removedirsAux (removeDir fsDel (subsystem_path "cpu" ["a", "b"]))
          (subsystem_path "cpu" ["a", "b"]).dropLast).dirs :=
  ⟨by decide,
    (delete_cgroup_removes_empty_ancestors fsDel "cpu" ["a", "b"] _ (by decide) rfl).1⟩

end PyCGroups
